import Mathlib

/-!
Verification of the disc-golf-course-finder client core.

The development shallowly embeds the logic of `src/App.tsx` (the canonical
variant; `part_002`/`part_003` contain the same helpers):
bounding-box construction (`bboxAround`), normalization of raw Overpass
elements into `CourseItem`s, deduplication by the `name__city` key, the
filter/sort result composer, the Overpass fetch error path, and the
Nominatim geocoder.  JavaScript machine numbers are modelled as exact
rationals (`Rat`); `undefined`/`null` are modelled as `Option.none`; the JS
`Number(...)` conversion and `parseFloat` are modelled on decimal literals
(`NaN` and the infinities, which the code only ever probes through
`Number.isFinite`, are collapsed into `Option.none`).
-/

namespace DiscGolf

/-! ### JavaScript string primitives -/

/-- `sub` is a prefix of `hay` (character lists). -/
def startsWithL : List Char → List Char → Bool
  | [], _ => true
  | _ :: _, [] => false
  | a :: as, b :: bs => a == b && startsWithL as bs

/-- Substring test on character lists; model of `String.prototype.includes`. -/
def hasSubL : List Char → List Char → Bool
  | [], sub => sub.isEmpty
  | h :: t, sub => startsWithL sub (h :: t) || hasSubL t sub

/-- Model of the JS expression `s.includes(sub)`. -/
def jsIncludes (s sub : String) : Bool :=
  hasSubL s.data sub.data

/-- JS whitespace used by `Number(...)` trimming (ASCII subset; the claims
only involve ASCII strings). -/
def isWS (c : Char) : Bool :=
  c == ' ' || c == '\t' || c == '\n' || c == '\r'

/-- Strip leading and trailing whitespace. -/
def jsTrim (l : List Char) : List Char :=
  ((l.dropWhile isWS).reverse.dropWhile isWS).reverse

/-! ### JavaScript numeric conversions -/

/-- Numeric value of a run of decimal digits. -/
def natOfDigits (ds : List Char) : Nat :=
  ds.foldl (fun n c => 10 * n + (c.toNat - 48)) 0

/-- Parse a leading digit run; fails when there is none. -/
def parseDigits (l : List Char) : Option (Nat × List Char) :=
  let ds := l.takeWhile Char.isDigit
  if ds.isEmpty then none else some (natOfDigits ds, l.dropWhile Char.isDigit)

/-- Parse an optional sign; `true` means negative. -/
def parseSign : List Char → Bool × List Char
  | '-' :: t => (true, t)
  | '+' :: t => (false, t)
  | l => (false, l)

/-- Parse `digits [. digits]` or `. digits` (the decimal mantissa forms JS
accepts, including `"5."` and `".5"`). -/
def parseMantissa (l : List Char) : Option (Rat × List Char) :=
  match parseDigits l with
  | some (n, rest) =>
    match rest with
    | '.' :: r2 =>
      let fs := r2.takeWhile Char.isDigit
      some ((n : Rat) + (natOfDigits fs : Rat) / ((10 : Rat) ^ fs.length),
        r2.dropWhile Char.isDigit)
    | _ => some ((n : Rat), rest)
  | none =>
    match l with
    | '.' :: r2 =>
      let fs := r2.takeWhile Char.isDigit
      if fs.isEmpty then none
      else some ((natOfDigits fs : Rat) / ((10 : Rat) ^ fs.length),
        r2.dropWhile Char.isDigit)
    | _ => none

/-- Apply a decimal exponent to a mantissa. -/
def applyExp (m : Rat) (neg : Bool) (e : Nat) : Rat :=
  if neg then m / (10 : Rat) ^ e else m * (10 : Rat) ^ e

/-- Parse a complete JS decimal numeric literal (sign, mantissa, optional
exponent); every character must be consumed.  Hex/octal/binary literals and
the `Infinity` keyword are not numeric here and yield `none`, which is
adequate because the code only distinguishes finite results. -/
def jsNumLit (l : List Char) : Option Rat :=
  let s1 := parseSign l
  match parseMantissa s1.2 with
  | none => none
  | some (m, r2) =>
    let signed := if s1.1 then -m else m
    match r2 with
    | [] => some signed
    | 'e' :: t =>
      let s2 := parseSign t
      match parseDigits s2.2 with
      | some (n, []) => some (applyExp signed s2.1 n)
      | _ => none
    | 'E' :: t =>
      let s2 := parseSign t
      match parseDigits s2.2 with
      | some (n, []) => some (applyExp signed s2.1 n)
      | _ => none
    | _ => none

/-- Model of `Number(x)` for `x` an optional string: `Number(undefined)` is
`NaN` (`none`); a whitespace-only string converts to `0`; otherwise the
trimmed string must be a numeric literal.  `none` stands for any non-finite
result, matching the `Number.isFinite` probe in the code. -/
def jsNumber : Option String → Option Rat
  | none => none
  | some s =>
    let t := jsTrim s.data
    if t.isEmpty then some 0 else jsNumLit t

/-- Model of `parseFloat(s)`: parse the longest numeric head after leading
whitespace, ignoring trailing garbage; `none` is `NaN`. -/
def jsParseFloat (s : String) : Option Rat :=
  let t := s.data.dropWhile isWS
  let s1 := parseSign t
  match parseMantissa s1.2 with
  | none => none
  | some (m, r2) =>
    let signed := if s1.1 then -m else m
    match r2 with
    | 'e' :: t2 =>
      let s2 := parseSign t2
      match parseDigits s2.2 with
      | some (n, _) => some (applyExp signed s2.1 n)
      | none => some signed
    | 'E' :: t2 =>
      let s2 := parseSign t2
      match parseDigits s2.2 with
      | some (n, _) => some (applyExp signed s2.1 n)
      | none => some signed
    | _ => some signed

/-- JS truthiness of an optional number (`undefined` and `0` are falsy). -/
def jsTruthy : Option Rat → Bool
  | none => false
  | some q => !(q == 0)

/-- JS `a || d` for an optional string `a` (empty strings are falsy). -/
def jsOrStr (o : Option String) (d : String) : String :=
  match o with
  | some s => if s = "" then d else s
  | none => d

/-- First truthy string in a `||` chain, else the default. -/
def firstTruthyStr : List (Option String) → String → String
  | [], d => d
  | o :: rest, d =>
    match o with
    | some s => if s = "" then firstTruthyStr rest d else s
    | none => firstTruthyStr rest d

/-! ### URL construction -/

/-- Upper-case hex digit of a value `< 16`. -/
def hexDigit (n : Nat) : Char :=
  if n < 10 then Char.ofNat (48 + n) else Char.ofNat (55 + n)

/-- Percent-encoding of one byte. -/
def pctByte (b : Nat) : List Char :=
  ['%', hexDigit (b / 16), hexDigit (b % 16)]

/-- UTF-8 bytes of one character. -/
def utf8Bytes (c : Char) : List Nat :=
  let n := c.toNat
  if n < 128 then [n]
  else if n < 2048 then [192 + n / 64, 128 + n % 64]
  else if n < 65536 then [224 + n / 4096, 128 + (n / 64) % 64, 128 + n % 64]
  else [240 + n / 262144, 128 + (n / 4096) % 64, 128 + (n / 64) % 64, 128 + n % 64]

/-- Characters `encodeURIComponent` leaves unescaped. -/
def isUnreserved (c : Char) : Bool :=
  c.isAlpha || c.isDigit ||
    ['-', '_', '.', '!', '~', '*', '(', ')'].contains c || c == '\''

/-- Model of `encodeURIComponent`. -/
def encodeURIComponent (s : String) : String :=
  ⟨s.data.foldr
    (fun c acc =>
      (if isUnreserved c then [c] else (utf8Bytes c).foldr (fun b a => pctByte b ++ a) []) ++ acc)
    []⟩

/-- Model of JS number-to-string coercion used inside template literals.
Only the shape of the URL matters to the specification, so the exact
rational is rendered; no claim inspects the digits. -/
def numToStr (q : Rat) : String :=
  toString q

/-- The coordinate map link built when both coordinates are truthy. -/
def coordMapUrl (lat lon : Rat) : String :=
  "https://www.google.com/maps?q=" ++ numToStr lat ++ "," ++ numToStr lon

/-- The text-search map link built from the encoded `name, city` query. -/
def searchMapUrl (name city : String) : String :=
  "https://www.google.com/maps/search/?api=1&query=" ++
    encodeURIComponent (name ++ ", " ++ city)

/-! ### Data model -/

/-- The difficulty enumeration of a course. -/
inductive Difficulty
  | Beginner
  | Intermediate
  | Advanced
deriving DecidableEq, Repr

/-- The difficulty selector of the UI; `All` is the wildcard. -/
inductive DiffSel
  | All
  | only (d : Difficulty)
deriving DecidableEq, Repr

/-- Canonical course record (`CourseItem` in `src/App.tsx`). -/
structure CourseItem where
  id : String
  name : String
  city : String
  difficulty : Difficulty
  rating : Rat
  holes : Rat
  description : String
  topPick : Bool
  mapUrl : String
  lat : Option Rat
  lon : Option Rat
deriving DecidableEq, Repr

/-- Tag bag of a raw Overpass element (`el.tags`); all OSM tag values are
strings, absent tags are `none`.  `addrCity` is the `"addr:city"` tag. -/
structure RawTags where
  name : Option String
  addrCity : Option String
  city : Option String
  addr_city : Option String
  holes : Option String
  description : Option String
deriving DecidableEq, Repr

/-- The `center` sub-object of a way/relation element. -/
structure RawCenter where
  lat : Option Rat
  lon : Option Rat
deriving DecidableEq, Repr

/-- A raw Overpass element as consumed by the normalizer. -/
structure RawElement where
  id : Option Int
  lat : Option Rat
  lon : Option Rat
  center : Option RawCenter
  tags : Option RawTags
deriving DecidableEq, Repr

/-- `el.lat ?? el.center?.lat`. -/
def elLat (el : RawElement) : Option Rat :=
  el.lat <|> el.center.bind RawCenter.lat

/-- `el.lon ?? el.center?.lon`. -/
def elLon (el : RawElement) : Option Rat :=
  el.lon <|> el.center.bind RawCenter.lon

/-- `el.tags?.holes`. -/
def tagsHoles (el : RawElement) : Option String :=
  el.tags.bind RawTags.holes

/-- Geo-normalization: the element-to-`CourseItem` mapping of
`fetchCoursesInBBox` (`src/App.tsx` lines 53-82). -/
def normalizeElement (el : RawElement) (idx : Nat) : CourseItem :=
  let lat := elLat el
  let lon := elLon el
  let name := jsOrStr (el.tags.bind RawTags.name) "Disc Golf Course"
  let city := firstTruthyStr
    [el.tags.bind RawTags.addrCity, el.tags.bind RawTags.city,
      el.tags.bind RawTags.addr_city] "Unknown"
  let holesTag := jsNumber (tagsHoles el)
  { id := match el.id with
      | some n => toString n
      | none => toString idx
    name := name
    city := city
    difficulty := Difficulty.Intermediate
    rating := (9 : Rat) / 2
    holes := match holesTag with
      | some q => q
      | none => 18
    description := jsOrStr (el.tags.bind RawTags.description)
      "Disc golf course (OpenStreetMap)"
    topPick := false
    mapUrl := if jsTruthy lat && jsTruthy lon then
        coordMapUrl (lat.getD 0) (lon.getD 0)
      else
        searchMapUrl name city
    lat := lat
    lon := lon }

/-! ### Deduplicator -/

/-- The `` `${c.name}__${c.city}` `` key. -/
def dedupKey (c : CourseItem) : String :=
  c.name ++ "__" ++ c.city

/-- The `Set`-threaded filter of the de-dup pass. -/
def dedupGo : List CourseItem → List String → List CourseItem
  | [], _ => []
  | c :: t, seen =>
    if seen.contains (dedupKey c) then dedupGo t seen
    else c :: dedupGo t (dedupKey c :: seen)

/-- De-dup by `name__city` (`src/App.tsx` lines 84-91). -/
def dedup (l : List CourseItem) : List CourseItem :=
  dedupGo l []

/-- Spec-side restatement of the deduplication contract: keep each item,
dropping every later item whose key equals an earlier item's key. -/
def firstOccurrenceSpec : List CourseItem → List CourseItem
  | [] => []
  | c :: t =>
    c :: firstOccurrenceSpec (t.filter (fun d => dedupKey d != dedupKey c))
termination_by l => l.length
decreasing_by
  simp only [List.length_cons]
  exact Nat.lt_succ_of_le (List.length_filter_le _ _)

/-! ### Bounding box -/

/-- A south/west/north/east query rectangle. -/
structure BBox where
  south : Rat
  west : Rat
  north : Rat
  east : Rat
deriving DecidableEq, Repr

/-- `bboxAround` (`src/App.tsx` lines 23-26): flat-earth 1 degree per 111 km. -/
def bboxAround (lat lon radiusKm : Rat) : BBox :=
  let d := radiusKm / 111
  { south := lat - d, west := lon - d, north := lat + d, east := lon + d }

/-! ### Result composer -/

/-- Sort keys of the UI. -/
inductive SortKey
  | rating
  | name
deriving DecidableEq, Repr

/-- Model of `String.prototype.localeCompare`, embedded as the code-point
order on strings (a valid locale collation for the ASCII data in play). -/
def localeCompare (a b : String) : Int :=
  if a < b then -1 else if a = b then 0 else 1

/-- The stable-sort order induced by the comparator
`(a, b) => b.rating - a.rating`: `a` may precede `b` iff the comparator is
non-positive. -/
def ratingLe (a b : CourseItem) : Bool :=
  decide (b.rating ≤ a.rating)

/-- The stable-sort order induced by `(a, b) => a.name.localeCompare(b.name)`. -/
def nameLe (a b : CourseItem) : Bool :=
  decide (localeCompare a.name b.name ≤ 0)

/-- Order selected by the sort key. -/
def sortLe : SortKey → CourseItem → CourseItem → Bool
  | SortKey.rating => ratingLe
  | SortKey.name => nameLe

/-- The filter predicate of the composer. -/
def matchesFilters (q : String) (d : DiffSel) (top : Bool) (c : CourseItem) : Bool :=
  jsIncludes ((c.name ++ " " ++ c.city).toLower) q.toLower
    && (match d with
      | DiffSel.All => true
      | DiffSel.only dd => c.difficulty == dd)
    && (if top then c.topPick else true)

/-- The result composer (`results` memo, `src/App.tsx` lines 111-123):
filter, then stable sort (JS `Array.prototype.sort` is stable, embedded as
`List.mergeSort`). -/
def results (src : List CourseItem) (q : String) (d : DiffSel) (top : Bool)
    (sk : SortKey) : List CourseItem :=
  (src.filter (matchesFilters q d top)).mergeSort (sortLe sk)

/-! ### Remote fetchers -/

/-- Error raised by the region-query fetch: a transport failure of `fetch`
itself, or the thrown `Overpass error` carrying the HTTP status. -/
inductive FetchErr
  | transport (msg : String)
  | overpassError (status : Nat)
deriving DecidableEq, Repr

/-- Abstracted outcome of the HTTP exchange performed by the fetcher. -/
inductive FetchOutcome
  | netError (msg : String)
  | response (status : Nat) (elements : List RawElement)
deriving DecidableEq, Repr

/-- `Response.ok`: status in the 200-299 range. -/
def httpOk (status : Nat) : Bool :=
  decide (200 ≤ status) && decide (status < 300)

/-- The region-query fetch (`src/App.tsx` lines 29-92), as a function of the
HTTP outcome: throw on transport failure, throw `Overpass error status` on a
non-ok response, otherwise normalize every element and de-dup. -/
def fetchCoursesInBBox (south west north east : Rat) (o : FetchOutcome) :
    Except FetchErr (List CourseItem) :=
  match o with
  | FetchOutcome.netError m => Except.error (FetchErr.transport m)
  | FetchOutcome.response status elements =>
    if !httpOk status then Except.error (FetchErr.overpassError status)
    else Except.ok (dedup (elements.enum.map (fun p => normalizeElement p.2 p.1)))

/-- One candidate of a Nominatim response (string-encoded coordinates). -/
structure GeoCandidate where
  lat : String
  lon : String
deriving DecidableEq, Repr

/-- Body of a geocode response. -/
inductive GeoBody
  | notArray
  | arr (cands : List GeoCandidate)
deriving DecidableEq, Repr

/-- Abstracted outcome of the geocode HTTP exchange. -/
inductive GeoOutcome
  | netError (msg : String)
  | response (status : Nat) (body : GeoBody)
deriving DecidableEq, Repr

/-- `geocodePlace` (`part_002` lines 95-108): `null` on a non-ok response, a
non-array body, or an empty candidate array; otherwise the parsed
coordinates of the first candidate.  A transport failure of `fetch` rejects
the promise. -/
def geocodePlace (q : String) (o : GeoOutcome) :
    Except String (Option (Option Rat × Option Rat)) :=
  match o with
  | GeoOutcome.netError m => Except.error m
  | GeoOutcome.response status body =>
    if !httpOk status then Except.ok none
    else match body with
      | GeoBody.notArray => Except.ok none
      | GeoBody.arr [] => Except.ok none
      | GeoBody.arr (c :: _) =>
        Except.ok (some (jsParseFloat c.lat, jsParseFloat c.lon))

/-! ### Concrete elements used by witnesses and counterexamples -/

/-- A raw element whose only variable part is the `holes` tag. -/
def elHoles (s : Option String) : RawElement :=
  ⟨some 1, some 1, some 2, none, some ⟨none, none, none, none, s, none⟩⟩

/-- A raw element with a zero latitude and a known longitude. -/
def elZeroLat : RawElement :=
  ⟨none, some 0, some 10, none, none⟩

/-- A raw element with both coordinates known and nonzero. -/
def elCoord : RawElement :=
  ⟨some 1, some 38, some (-90), none, none⟩

/-- A raw element with no coordinates at all. -/
def elNoCoord : RawElement :=
  ⟨some 1, none, none, none, none⟩

/-! ### Claim C5: bounding-box builder -/

/-- C5: `bboxAround` returns the rectangle
`(lat - r/111, lon - r/111, lat + r/111, lon + r/111)`, and at
`(38.627, -90.199, 50)` each side is within `1/1000` of the quoted
approximate values. -/
theorem C5_bboxAround :
    (∀ lat lon r : Rat, bboxAround lat lon r =
      { south := lat - r / 111, west := lon - r / 111,
        north := lat + r / 111, east := lon + r / 111 })
    ∧ |(bboxAround 38.627 (-90.199) 50).south - 38.177| < 1 / 1000
    ∧ |(bboxAround 38.627 (-90.199) 50).north - 39.077| < 1 / 1000
    ∧ |(bboxAround 38.627 (-90.199) 50).west - (-90.649)| < 1 / 1000
    ∧ |(bboxAround 38.627 (-90.199) 50).east - (-89.749)| < 1 / 1000 := by
  refine ⟨fun lat lon r => rfl, ?_, ?_, ?_, ?_⟩ <;>
    · simp only [bboxAround]
      rw [abs_lt]
      constructor <;> norm_num

/-! ### Claims C3, C10, C4: holes normalization -/

/-- C3: normalization defaults `holes` to 18 when the tag is absent or does
not convert to a finite number, and passes the parsed value through when it
does (so a `"9"` tag yields 9); the split is on the finite-parse result. -/
theorem C3_holesDefault (el : RawElement) (idx : Nat) :
    (jsNumber (tagsHoles el) = none → (normalizeElement el idx).holes = 18)
    ∧ (∀ q : Rat, jsNumber (tagsHoles el) = some q →
        (normalizeElement el idx).holes = q)
    ∧ (tagsHoles el = none → (normalizeElement el idx).holes = 18)
    ∧ (tagsHoles el = some "9" → (normalizeElement el idx).holes = 9) := by
  have hrep : (normalizeElement el idx).holes =
      match jsNumber (tagsHoles el) with
      | some q => q
      | none => 18 := rfl
  refine ⟨fun h => ?_, fun q h => ?_, fun h => ?_, fun h => ?_⟩
  · rw [hrep, h]
  · rw [hrep, h]
  · rw [hrep, h]; rfl
  · rw [hrep, h]
    have : jsNumber (some "9") = some 9 := by decide
    rw [this]

/-- Witness for C3 at concrete tags: absent, `"abc"`, and `"9"`. -/
theorem C3_holesDefault_witness :
    (normalizeElement (elHoles none) 0).holes = 18
    ∧ (normalizeElement (elHoles (some "abc")) 0).holes = 18
    ∧ (normalizeElement (elHoles (some "9")) 0).holes = 9
    ∧ (normalizeElement (elHoles (some "9")) 0).holes = 9 :=
  ⟨(C3_holesDefault (elHoles none) 0).2.2.1 (by decide),
   (C3_holesDefault (elHoles (some "abc")) 0).1 (by decide),
   (C3_holesDefault (elHoles (some "9")) 0).2.1 9 (by decide),
   (C3_holesDefault (elHoles (some "9")) 0).2.2.2 (by decide)⟩

/-- C10: a present-but-empty `holes` tag converts to the finite number 0
(`Number("") = 0`), so the finite check keeps 0 rather than defaulting. -/
theorem C10_emptyHolesTag (el : RawElement) (idx : Nat)
    (h : tagsHoles el = some "") :
    (normalizeElement el idx).holes = 0
    ∧ (normalizeElement el idx).holes ≠ 18 := by
  have hrep : (normalizeElement el idx).holes =
      match jsNumber (tagsHoles el) with
      | some q => q
      | none => 18 := rfl
  have h0 : jsNumber (tagsHoles el) = some 0 := by rw [h]; decide
  rw [hrep, h0]
  exact ⟨rfl, by norm_num⟩

/-- Witness for C10 at a concrete element with an empty `holes` tag. -/
theorem C10_emptyHolesTag_witness :
    (normalizeElement (elHoles (some "")) 0).holes = 0
    ∧ (normalizeElement (elHoles (some "")) 0).holes ≠ 18 :=
  C10_emptyHolesTag (elHoles (some "")) 0 (by decide)

/-- C4 fails as stated: a record whose `holes` tag is the string `"0"`
normalizes to `holes = 0`, which is not positive. -/
theorem C4_counterexample :
    (normalizeElement (elHoles (some "0")) 0).holes = 0
    ∧ ¬ (0 < (normalizeElement (elHoles (some "0")) 0).holes) := by
  have h0 : (normalizeElement (elHoles (some "0")) 0).holes = 0 := by decide
  exact ⟨h0, by rw [h0]; exact lt_irrefl 0⟩

/-- C4 amended: `holes` is positive (namely 18) whenever the tag is absent
or non-numeric; otherwise the parsed finite value is passed through
unvalidated, and it may be zero or negative. -/
theorem C4_amended_holes (el : RawElement) (idx : Nat) :
    0 < (normalizeElement el idx).holes
    ∨ ∃ q : Rat, jsNumber (tagsHoles el) = some q ∧ q ≤ 0
        ∧ (normalizeElement el idx).holes = q := by
  have hrep : (normalizeElement el idx).holes =
      match jsNumber (tagsHoles el) with
      | some q => q
      | none => 18 := rfl
  cases h : jsNumber (tagsHoles el) with
  | none =>
    left
    rw [hrep, h]
    norm_num
  | some q =>
    rcases lt_or_le 0 q with hq | hq
    · left
      rw [hrep, h]
      exact hq
    · right
      exact ⟨q, rfl, hq, by rw [hrep, h]⟩

/-! ### Claims C2, C9: deduplicator -/

theorem dedupGo_sublist (l : List CourseItem) :
    ∀ seen, (dedupGo l seen).Sublist l := by
  induction l with
  | nil => intro seen; exact List.Sublist.refl []
  | cons c t ih =>
    intro seen
    simp only [dedupGo]
    split
    · exact (ih seen).cons c
    · exact (ih (dedupKey c :: seen)).cons₂ c

theorem mem_dedupGo_not_seen (l : List CourseItem) :
    ∀ seen, ∀ x ∈ dedupGo l seen, seen.contains (dedupKey x) = false := by
  induction l with
  | nil => intro seen x hx; cases hx
  | cons c t ih =>
    intro seen x hx
    simp only [dedupGo] at hx
    by_cases h : seen.contains (dedupKey c) = true
    · rw [if_pos h] at hx
      exact ih seen x hx
    · rw [if_neg h] at hx
      rcases List.mem_cons.mp hx with rfl | hx'
      · exact Bool.not_eq_true _ ▸ Bool.of_not_eq_true h
      · have := ih (dedupKey c :: seen) x hx'
        rw [List.contains_cons] at this
        exact (Bool.or_eq_false_iff.mp this).2

theorem dedupGo_pairwise_key (l : List CourseItem) :
    ∀ seen, (dedupGo l seen).Pairwise (fun a b => dedupKey a ≠ dedupKey b) := by
  induction l with
  | nil => intro seen; exact List.Pairwise.nil
  | cons c t ih =>
    intro seen
    simp only [dedupGo]
    split
    · exact ih seen
    · refine List.Pairwise.cons (fun b hb hkey => ?_) (ih (dedupKey c :: seen))
      have := mem_dedupGo_not_seen t (dedupKey c :: seen) b hb
      rw [List.contains_cons, Bool.or_eq_false_iff, beq_eq_false_iff_ne] at this
      exact this.1 hkey.symm

theorem dedupGo_eq_firstOccurrence (l : List CourseItem) :
    ∀ seen, dedupGo l seen =
      firstOccurrenceSpec (l.filter (fun c => !(seen.contains (dedupKey c)))) := by
  induction l with
  | nil =>
    intro seen
    simp only [List.filter_nil, dedupGo, firstOccurrenceSpec]
  | cons c t ih =>
    intro seen
    simp only [dedupGo]
    by_cases h : seen.contains (dedupKey c) = true
    · rw [if_pos h, List.filter_cons_of_neg (by rw [h]; simp), ih seen]
    · have hf : seen.contains (dedupKey c) = false := Bool.of_not_eq_true h
      rw [if_neg h, List.filter_cons_of_pos (by rw [hf]; rfl)]
      rw [firstOccurrenceSpec, ih (dedupKey c :: seen), List.filter_filter]
      congr 1
      refine congrArg firstOccurrenceSpec (List.filter_congr (fun x _ => ?_))
      rw [List.contains_cons, Bool.not_or]
      rfl

/-- C2: the deduplicator is exactly the first-occurrence filter on the
`name__city` key: it returns a subsequence of its input (first-occurrence
order preserved) in which an item is dropped iff an earlier item had the
same key, and no two retained entries share the same `(name, city)` pair. -/
theorem C2_dedup (l : List CourseItem) :
    dedup l = firstOccurrenceSpec l
    ∧ (dedup l).Sublist l
    ∧ (dedup l).Pairwise (fun a b => dedupKey a ≠ dedupKey b)
    ∧ (dedup l).Pairwise (fun a b => ¬(a.name = b.name ∧ a.city = b.city)) := by
  refine ⟨?_, dedupGo_sublist l [], dedupGo_pairwise_key l [],
    (dedupGo_pairwise_key l []).imp (fun hk hp => ?_)⟩
  · rw [dedup, dedupGo_eq_firstOccurrence l []]
    congr 1
    have : ∀ c : CourseItem, (!(List.contains [] (dedupKey c))) = true := by
      intro c; rfl
    calc l.filter (fun c => !(List.contains [] (dedupKey c)))
        = l.filter (fun _ => true) := List.filter_congr (fun x _ => this x)
      _ = l := List.filter_true l
  · exact hk (by rw [dedupKey, dedupKey, hp.1, hp.2])

theorem dedupGo_of_fresh (l : List CourseItem) :
    ∀ seen, (∀ x ∈ l, seen.contains (dedupKey x) = false) →
      l.Pairwise (fun a b => dedupKey a ≠ dedupKey b) →
      dedupGo l seen = l := by
  induction l with
  | nil => intro seen _ _; rfl
  | cons c t ih =>
    intro seen hfresh hpair
    simp only [dedupGo]
    rw [if_neg (by rw [hfresh c (List.mem_cons_self c t)]; simp)]
    congr 1
    refine ih (dedupKey c :: seen) (fun x hx => ?_) (List.Pairwise.of_cons hpair)
    rw [List.contains_cons, Bool.or_eq_false_iff, beq_eq_false_iff_ne]
    exact ⟨fun e => (List.pairwise_cons.mp hpair).1 x hx e.symm,
      hfresh x (List.mem_cons_of_mem c hx)⟩

/-- C9: the deduplicator is idempotent. -/
theorem C9_dedup_idempotent (l : List CourseItem) :
    dedup (dedup l) = dedup l := by
  exact dedupGo_of_fresh (dedup l) [] (fun x _ => rfl) (dedupGo_pairwise_key l [])

/-! ### Claim C6: mapUrl construction -/

theorem append_ne_empty_left (s t : String) (h : s.data ≠ []) : s ++ t ≠ "" := by
  intro he
  have hd := congrArg String.data he
  rw [String.data_append] at hd
  exact h (List.append_eq_nil.mp hd).1

theorem coordMapUrl_ne_empty (lat lon : Rat) : coordMapUrl lat lon ≠ "" := by
  rw [coordMapUrl, String.append_assoc, String.append_assoc]
  exact append_ne_empty_left _ _ (by decide)

theorem searchMapUrl_ne_empty (name city : String) : searchMapUrl name city ≠ "" :=
  append_ne_empty_left _ _ (by decide)

/-- The two URL shapes differ at character 27 (`?` versus `/`), whatever the
coordinates, name and city are. -/
theorem coordMapUrl_ne_searchMapUrl (lat lon : Rat) (name city : String) :
    coordMapUrl lat lon ≠ searchMapUrl name city := by
  intro h
  have h27 := congrArg (fun s : String => s.data[27]?) h
  rw [coordMapUrl, searchMapUrl, String.append_assoc, String.append_assoc] at h27
  simp only [String.data_append] at h27
  rw [List.getElem?_append_left (by decide), List.getElem?_append_left (by decide)] at h27
  revert h27
  decide

/-- Helper: the branch structure of `mapUrl` inside `normalizeElement`. -/
theorem normalizeElement_mapUrl (el : RawElement) (idx : Nat) :
    (normalizeElement el idx).mapUrl =
      if jsTruthy (elLat el) && jsTruthy (elLon el) then
        coordMapUrl ((elLat el).getD 0) ((elLon el).getD 0)
      else
        searchMapUrl (normalizeElement el idx).name (normalizeElement el idx).city :=
  rfl

/-- C6 amended: `mapUrl` is never empty, and it is the coordinate link iff
both coordinates are JS-truthy (present and nonzero); otherwise it is the
text-search URL built from the normalized name and city. -/
theorem C6_amended_mapUrl (el : RawElement) (idx : Nat) :
    (normalizeElement el idx).mapUrl ≠ ""
    ∧ ((normalizeElement el idx).mapUrl
        = coordMapUrl ((elLat el).getD 0) ((elLon el).getD 0)
        ↔ (jsTruthy (elLat el) && jsTruthy (elLon el)) = true)
    ∧ ((jsTruthy (elLat el) && jsTruthy (elLon el)) = false →
        (normalizeElement el idx).mapUrl
          = searchMapUrl (normalizeElement el idx).name
              (normalizeElement el idx).city) := by
  have hrep := normalizeElement_mapUrl el idx
  by_cases hc : (jsTruthy (elLat el) && jsTruthy (elLon el)) = true
  · rw [hrep, if_pos hc]
    refine ⟨coordMapUrl_ne_empty _ _, iff_of_true rfl hc, fun hf => ?_⟩
    rw [hc] at hf
    cases hf
  · have hf : (jsTruthy (elLat el) && jsTruthy (elLon el)) = false :=
      Bool.of_not_eq_true hc
    rw [hrep, if_neg hc]
    exact ⟨searchMapUrl_ne_empty _ _,
      iff_of_false (fun he => coordMapUrl_ne_searchMapUrl _ _ _ _ he.symm)
        (by rw [hf]; exact Bool.false_ne_true),
      fun _ => rfl⟩

/-- Witness for C6 at concrete elements: nonzero coordinates give the
coordinate link, absent coordinates give the search link, and the link is
never empty. -/
theorem C6_amended_mapUrl_witness :
    (normalizeElement elCoord 0).mapUrl
      = coordMapUrl ((elLat elCoord).getD 0) ((elLon elCoord).getD 0)
    ∧ (normalizeElement elNoCoord 0).mapUrl
      = searchMapUrl (normalizeElement elNoCoord 0).name
          (normalizeElement elNoCoord 0).city
    ∧ (normalizeElement elNoCoord 0).mapUrl ≠ "" :=
  ⟨(C6_amended_mapUrl elCoord 0).2.1.mpr (by decide),
   (C6_amended_mapUrl elNoCoord 0).2.2 (by decide),
   (C6_amended_mapUrl elNoCoord 0).1⟩

/-- C6 fails as stated: a record whose coordinates are known but whose
latitude is 0 gets the text-search URL, not the coordinate link, because
the JS guard `lat && lon` tests truthiness rather than presence. -/
theorem C6_counterexample :
    (normalizeElement elZeroLat 0).lat = some 0
    ∧ (normalizeElement elZeroLat 0).lon = some 10
    ∧ (normalizeElement elZeroLat 0).mapUrl
        = searchMapUrl "Disc Golf Course" "Unknown"
    ∧ (normalizeElement elZeroLat 0).mapUrl ≠ coordMapUrl 0 10 := by
  refine ⟨rfl, rfl, by decide, ?_⟩
  have : (normalizeElement elZeroLat 0).mapUrl
      = searchMapUrl "Disc Golf Course" "Unknown" := by decide
  rw [this]
  exact fun he => coordMapUrl_ne_searchMapUrl 0 10 _ _ he.symm

/-! ### Claim C7: region-query fetch error path -/

/-- C7: the region-query fetch propagates a transport failure, throws an
error carrying the HTTP status on any non-success response, and in both
cases yields no result list. -/
theorem C7_fetchErrors (south west north east : Rat) (msg : String)
    (st : Nat) (els : List RawElement) (hst : httpOk st = false) :
    fetchCoursesInBBox south west north east (FetchOutcome.netError msg)
      = Except.error (FetchErr.transport msg)
    ∧ fetchCoursesInBBox south west north east (FetchOutcome.response st els)
      = Except.error (FetchErr.overpassError st)
    ∧ ∀ items, fetchCoursesInBBox south west north east (FetchOutcome.response st els)
        ≠ Except.ok items := by
  have herr : fetchCoursesInBBox south west north east (FetchOutcome.response st els)
      = Except.error (FetchErr.overpassError st) := by
    rw [fetchCoursesInBBox, hst]
    rfl
  exact ⟨rfl, herr, fun items he => by rw [herr] at he; cases he⟩

/-- Witness for C7 at status 500 and a concrete transport failure. -/
theorem C7_fetchErrors_witness :
    fetchCoursesInBBox 0 0 0 0 (FetchOutcome.netError "network down")
      = Except.error (FetchErr.transport "network down")
    ∧ fetchCoursesInBBox 0 0 0 0 (FetchOutcome.response 500 [])
      = Except.error (FetchErr.overpassError 500) :=
  ⟨(C7_fetchErrors 0 0 0 0 "network down" 500 [] (by decide)).1,
   (C7_fetchErrors 0 0 0 0 "network down" 500 [] (by decide)).2.1⟩

/-! ### Claim C8: place-name geocoder -/

/-- C8 amended: on a success status the geocoder returns the parsed
coordinates of exactly the first candidate (later candidates are never
consulted) and `null` when the candidate array is empty; it also returns
`null` on a non-success status or a non-array body. -/
theorem C8_amended_geocode (q : String) (st : Nat) (c : GeoCandidate)
    (rest rest2 : List GeoCandidate) :
    (httpOk st = true →
      geocodePlace q (GeoOutcome.response st (GeoBody.arr [])) = Except.ok none)
    ∧ (httpOk st = true →
      geocodePlace q (GeoOutcome.response st (GeoBody.arr (c :: rest)))
        = Except.ok (some (jsParseFloat c.lat, jsParseFloat c.lon)))
    ∧ (httpOk st = false → ∀ b,
      geocodePlace q (GeoOutcome.response st b) = Except.ok none)
    ∧ geocodePlace q (GeoOutcome.response st GeoBody.notArray) = Except.ok none
    ∧ geocodePlace q (GeoOutcome.response st (GeoBody.arr (c :: rest)))
      = geocodePlace q (GeoOutcome.response st (GeoBody.arr (c :: rest2))) := by
  refine ⟨fun h => ?_, fun h => ?_, fun h b => ?_, ?_, ?_⟩
  · simp only [geocodePlace, h]
    rfl
  · simp only [geocodePlace, h]
    rfl
  · simp only [geocodePlace.eq_def, h]
    rfl
  · by_cases h : httpOk st = true
    · simp only [geocodePlace, h]
      rfl
    · simp only [geocodePlace, Bool.of_not_eq_true h]
      rfl
  · by_cases h : httpOk st = true
    · simp only [geocodePlace, h]
    · simp only [geocodePlace, Bool.of_not_eq_true h]

/-- Witness for C8 at concrete statuses and candidate lists. -/
theorem C8_amended_geocode_witness :
    geocodePlace "St. Louis" (GeoOutcome.response 200 (GeoBody.arr []))
      = Except.ok none
    ∧ geocodePlace "St. Louis"
        (GeoOutcome.response 200 (GeoBody.arr [⟨"38", "-90"⟩]))
      = Except.ok (some (jsParseFloat "38", jsParseFloat "-90"))
    ∧ geocodePlace "St. Louis"
        (GeoOutcome.response 404 (GeoBody.arr [⟨"38", "-90"⟩]))
      = Except.ok none
    ∧ geocodePlace "St. Louis"
        (GeoOutcome.response 200 (GeoBody.arr [⟨"38", "-90"⟩]))
      = geocodePlace "St. Louis"
          (GeoOutcome.response 200 (GeoBody.arr [⟨"38", "-90"⟩, ⟨"1", "2"⟩])) :=
  ⟨(C8_amended_geocode "St. Louis" 200 ⟨"38", "-90"⟩ [] [⟨"1", "2"⟩]).1 (by decide),
   (C8_amended_geocode "St. Louis" 200 ⟨"38", "-90"⟩ [] [⟨"1", "2"⟩]).2.1 (by decide),
   (C8_amended_geocode "St. Louis" 404 ⟨"38", "-90"⟩ [] [⟨"1", "2"⟩]).2.2.1 (by decide) _,
   (C8_amended_geocode "St. Louis" 200 ⟨"38", "-90"⟩ [] [⟨"1", "2"⟩]).2.2.2.2⟩

/-- C8 fails as stated: on a non-success HTTP status the geocoder returns
`null` even though the response body holds a nonempty candidate array, so
`null` is not reserved for the zero-candidate case. -/
theorem C8_counterexample :
    geocodePlace "St. Louis" (GeoOutcome.response 500 (GeoBody.arr [⟨"38", "-90"⟩]))
      = Except.ok none
    ∧ [(⟨"38", "-90"⟩ : GeoCandidate)].length ≠ 0
    ∧ geocodePlace "St. Louis" (GeoOutcome.response 500 (GeoBody.arr [⟨"38", "-90"⟩]))
      ≠ Except.ok (some (jsParseFloat "38", jsParseFloat "-90")) := by
  have h : geocodePlace "St. Louis"
      (GeoOutcome.response 500 (GeoBody.arr [⟨"38", "-90"⟩])) = Except.ok none := rfl
  refine ⟨h, by decide, ?_⟩
  rw [h]
  intro he
  cases he

/-! ### Claim C1: result composer -/

theorem localeCompare_nonpos_iff (a b : String) :
    localeCompare a b ≤ 0 ↔ a ≤ b := by
  unfold localeCompare
  split_ifs with h1 h2
  · exact iff_of_true (by norm_num) (le_of_lt h1)
  · exact iff_of_true le_rfl (le_of_eq h2)
  · have hba : b < a := lt_of_le_of_ne (not_lt.mp h1) (fun e => h2 e.symm)
    exact iff_of_false (by norm_num) (not_le.mpr hba)

theorem sortLe_trans (sk : SortKey) (a b c : CourseItem)
    (hab : sortLe sk a b) (hbc : sortLe sk b c) : sortLe sk a c := by
  cases sk with
  | rating =>
    simp only [sortLe, ratingLe, decide_eq_true_eq] at *
    exact le_trans hbc hab
  | name =>
    simp only [sortLe, nameLe, decide_eq_true_eq, localeCompare_nonpos_iff] at *
    exact le_trans hab hbc

theorem sortLe_total (sk : SortKey) (a b : CourseItem) :
    sortLe sk a b || sortLe sk b a := by
  cases sk with
  | rating =>
    simp only [sortLe, ratingLe, Bool.or_eq_true, decide_eq_true_eq]
    exact le_total b.rating a.rating
  | name =>
    simp only [sortLe, nameLe, Bool.or_eq_true, decide_eq_true_eq,
      localeCompare_nonpos_iff]
    exact le_total a.name b.name

theorem matchesFilters_eq_true_iff (q : String) (d : DiffSel) (top : Bool)
    (c : CourseItem) :
    matchesFilters q d top c = true ↔
      jsIncludes ((c.name ++ " " ++ c.city).toLower) q.toLower = true
      ∧ (d = DiffSel.All ∨ d = DiffSel.only c.difficulty)
      ∧ (top = true → c.topPick = true) := by
  cases d with
  | All => cases top <;> simp [matchesFilters, Bool.and_eq_true]
  | only dd =>
    cases top <;>
      simp [matchesFilters, Bool.and_eq_true, beq_iff_eq, @eq_comm _ dd,
        and_assoc]

/-- C1: the composer returns exactly the source items whose lowercased
`name city` string contains the lowercased query, whose difficulty matches
the selector (wildcard `All` bypassing it), and which are top picks whenever
the flag is set; the output is ordered by rating descending under the
`rating` key and by name ascending (locale comparison) under the `name`
key; an empty source yields an empty result. -/
theorem C1_resultsComposer (src : List CourseItem) (q : String) (d : DiffSel)
    (top : Bool) :
    (∀ sk, (results src q d top sk).Perm
      (src.filter (matchesFilters q d top)))
    ∧ (∀ sk c, c ∈ results src q d top sk ↔
        c ∈ src
        ∧ jsIncludes ((c.name ++ " " ++ c.city).toLower) q.toLower = true
        ∧ (d = DiffSel.All ∨ d = DiffSel.only c.difficulty)
        ∧ (top = true → c.topPick = true))
    ∧ (results src q d top SortKey.rating).Pairwise
        (fun a b => b.rating ≤ a.rating)
    ∧ (results src q d top SortKey.name).Pairwise
        (fun a b => localeCompare a.name b.name ≤ 0)
    ∧ (∀ sk, results [] q d top sk = []) := by
  refine ⟨fun sk => List.mergeSort_perm _ _, fun sk c => ?_, ?_, ?_,
    fun sk => by simp [results]⟩
  · rw [results, List.mem_mergeSort, List.mem_filter,
      matchesFilters_eq_true_iff]
  · have hs := List.sorted_mergeSort
      (sortLe_trans SortKey.rating) (sortLe_total SortKey.rating)
      (src.filter (matchesFilters q d top))
    exact hs.imp (fun h => by
      simpa only [sortLe, ratingLe, decide_eq_true_eq] using h)
  · have hs := List.sorted_mergeSort
      (sortLe_trans SortKey.name) (sortLe_total SortKey.name)
      (src.filter (matchesFilters q d top))
    exact hs.imp (fun h => by
      simpa only [sortLe, nameLe, decide_eq_true_eq] using h)

end DiscGolf
